import Mathlib

/-!
Verification development for the react-media-recorder hook
(src/src/index.ts, primary variant; the extended variant is embedded where a
claim cites it). The hook is a state wrapper over the browser capture and
recorder capabilities; we embed its state and each handler as an executable
Lean function and prove the documented properties about them.
-/

/-- Kind of a media track within a stream (audio or video channel). -/
inductive TrackKind
  | audio
  | video
deriving DecidableEq

/-- Ready state of a media track: `live` or `ended` (mirrors
`MediaStreamTrack.readyState`). -/
inductive ReadyState
  | live
  | ended
deriving DecidableEq

/-- One media track: its kind, its `enabled` flag (toggled by mute/unmute)
and its `readyState` (set to `ended` by `track.stop()`). -/
structure Track where
  kind : TrackKind
  enabled : Bool
  readyState : ReadyState
deriving DecidableEq

/-- A media stream is its list of tracks. -/
abbrev MediaStream := List Track

/-- State of the external `MediaRecorder` collaborator, as exposed by its
`state` property: `inactive`, `recording` or `paused`. -/
inductive MRState
  | inactive
  | recording
  | paused
deriving DecidableEq

/-- One recorded data chunk as delivered by a `dataavailable` event: an
abstract payload identifier plus its reported MIME `type`. -/
structure Chunk where
  data : Nat
  type : String
deriving DecidableEq

/-- A finalized blob: the chunk parts it was assembled from and its MIME
`type` (mirrors `new Blob(parts, blobProperty)`). -/
structure Blob where
  parts : List Chunk
  type : String
deriving DecidableEq

/-- BlobPropertyBag: the optional `type` field of the property object passed
to the `Blob` constructor. -/
structure BlobPropertyBag where
  type : Option String
deriving DecidableEq

/-- Hook configuration (`ReactMediaRecorderHookProps`, src/src/index.ts lines
27-37). The boolean-or-constraints forms of `audio`/`video` and
`mediaRecorderOptions` only parametrize the external acquisition call and the
preflight console warnings; the state logic embedded here depends on their
truthiness, kept as booleans. -/
structure ReactMediaRecorderHookProps where
  audio : Bool
  video : Bool
  screen : Bool
  blobPropertyBag : Option BlobPropertyBag
  customMediaStream : Option MediaStream
  stopStreamsOnStop : Bool
deriving DecidableEq

/-- The external `navigator.mediaDevices` collaborator: the streams its
acquisition calls would return, or the named error it would throw (`failure`)
covering both `getUserMedia` and `getDisplayMedia`. -/
structure MediaDevices where
  userMedia : MediaStream
  displayMedia : MediaStream
  audioMedia : MediaStream
  failure : Option String
deriving DecidableEq

/-- The `StatusMessages` union (src/src/index.ts lines 42-56). Only `idle`,
`acquiring_media`, `recording`, `stopping` and `stopped` are ever assigned by
the hook; the remaining members exist in the source union type. -/
inductive StatusMessages
  | media_aborted
  | permission_denied
  | no_specified_media_found
  | media_in_use
  | invalid_media_constraints
  | no_constraints
  | recorder_error
  | idle
  | acquiring_media
  | delayed_start
  | recording
  | stopping
  | stopped
  | requesting_media
deriving DecidableEq

/-- The `RecorderErrors` enum (src/src/index.ts lines 58-68) as the lookup
from a stored error key (a thrown error name, `NONE`, or `NO_RECORDER`) to
the string surfaced in the render props. A key outside the table yields
`none` (in the source, indexing the enum with an unknown key is undefined). -/
def RecorderErrors : String → Option String
  | "AbortError" => some "media_aborted"
  | "NotAllowedError" => some "permission_denied"
  | "NotFoundError" => some "no_specified_media_found"
  | "NotReadableError" => some "media_in_use"
  | "OverconstrainedError" => some "invalid_media_constraints"
  | "TypeError" => some "no_constraints"
  | "NONE" => some ""
  | "NO_RECORDER" => some "recorder_error"
  | "UnsupportedBrowserError" => some "unsupported_browser"
  | _ => none

/-- State owned by one `useReactMediaRecorder` invocation: the refs and
useState cells of the hook, plus observation fields — `nextUrl`/`urlsIssued`
model `URL.createObjectURL` issuing a fresh object URL on each call, and
`onStopCalls`/`onStartCalls` log every invocation of the consumer callbacks
with their arguments. `acqCount` counts runs of `getMediaStream`. -/
structure HookState where
  mediaRecorder : Option MRState
  mediaChunks : List Chunk
  mediaStream : Option MediaStream
  status : StatusMessages
  isAudioMuted : Bool
  mediaBlobUrl : Option Nat
  error : String
  nextUrl : Nat
  urlsIssued : List Nat
  onStopCalls : List (Nat × Blob)
  onStartCalls : Nat
  acqCount : Nat
deriving DecidableEq

/-- Initial hook state: all refs null, empty chunk buffer, status `idle`,
error key `NONE` (src/src/index.ts lines 81-87). -/
def initialState : HookState :=
  { mediaRecorder := none
    mediaChunks := []
    mediaStream := none
    status := StatusMessages.idle
    isAudioMuted := false
    mediaBlobUrl := none
    error := "NONE"
    nextUrl := 0
    urlsIssued := []
    onStopCalls := []
    onStartCalls := 0
    acqCount := 0 }

/-- The `error` render prop: `RecorderErrors[error]` (src/src/index.ts line
267), i.e. the stored key mapped through the table. -/
def exposedError (s : HookState) : Option String :=
  RecorderErrors s.error

/-- Embeds `getMediaStream` (src/src/index.ts lines 89-124). Status goes to
`acquiring_media`; a supplied custom stream is adopted directly; otherwise a
screen capture merges the audio tracks of a separately acquired audio stream
into the display stream, and a plain capture adopts the user-media stream. A
thrown named error is caught: its name is stored in `error` and the stream is
left unset. Status resolves to `idle` on every path. -/
def getMediaStream (cfg : ReactMediaRecorderHookProps) (dev : MediaDevices)
    (s : HookState) : HookState :=
  let s1 := { s with status := StatusMessages.acquiring_media,
                     acqCount := s.acqCount + 1 }
  match cfg.customMediaStream with
  | some cs => { s1 with mediaStream := some cs, status := StatusMessages.idle }
  | none =>
    match dev.failure with
    | some n => { s1 with error := n, status := StatusMessages.idle }
    | none =>
      if cfg.screen then
        let stream :=
          if cfg.audio then
            dev.displayMedia ++
              dev.audioMedia.filter (fun t => t.kind = TrackKind.audio)
          else dev.displayMedia
        { s1 with mediaStream := some stream, status := StatusMessages.idle }
      else
        { s1 with mediaStream := some dev.userMedia,
                  status := StatusMessages.idle }

/-- Embeds `onRecordingActive` (src/src/index.ts lines 217-222): a
`dataavailable` event pushes its chunk onto the buffer. -/
def onRecordingActive (c : Chunk) (s : HookState) : HookState :=
  { s with mediaChunks := s.mediaChunks ++ [c] }

/-- Embeds `onRecordingStart` (src/src/index.ts lines 177-179): the recorder
start event invokes the consumer `onStart` callback. -/
def onRecordingStart (s : HookState) : HookState :=
  { s with onStartCalls := s.onStartCalls + 1 }

/-- Merge of the blob property `type` fields as performed by
`Object.assign(first, second)`: a `type` present on the second object
overwrites the first. -/
def objectAssignType (first : Option String) (second : Option String) :
    Option String :=
  match second with
  | some t => some t
  | none => first

/-- Embeds `onRecordingStop` (src/src/index.ts lines 181-193), the finalize
handler run by the recorder stop event. `const [chunk] = mediaChunks.current`
reads the first buffered chunk; on an empty buffer `chunk` is undefined and
the subsequent `chunk.type` access throws, modeled as `none` (the throw
happens before any state update). Otherwise the blob property is
`Object.assign({ type: chunk.type }, blobPropertyBag || (video ?
{ type: "video/mp4" } : { type: "audio/wav" }))`, the blob is assembled from
the current buffer, a fresh object URL is created, status becomes `stopped`,
`mediaBlobUrl` is set and `onStop(url, blob)` is invoked. -/
def onRecordingStop (cfg : ReactMediaRecorderHookProps) (s : HookState) :
    Option HookState :=
  match s.mediaChunks with
  | [] => none
  | chunk :: rest =>
    let secondBag : BlobPropertyBag :=
      match cfg.blobPropertyBag with
      | some bag => bag
      | none =>
        if cfg.video then { type := some "video/mp4" }
        else { type := some "audio/wav" }
    let blobProperty : BlobPropertyBag :=
      { type := objectAssignType (some chunk.type) secondBag.type }
    let blob : Blob := { parts := chunk :: rest,
                         type := blobProperty.type.getD "" }
    let url := s.nextUrl
    some { s with
      status := StatusMessages.stopped,
      mediaBlobUrl := some url,
      nextUrl := s.nextUrl + 1,
      urlsIssued := s.urlsIssued ++ [url],
      onStopCalls := s.onStopCalls ++ [(url, blob)] }

/-- Embeds `muteAudio` (src/src/index.ts lines 195-204): sets `isAudioMuted`
to `mute` and assigns `enabled = !mute` on every audio track of the current
stream (non-audio tracks untouched). -/
def muteAudio (mute : Bool) (s : HookState) : HookState :=
  { s with
    isAudioMuted := mute,
    mediaStream := s.mediaStream.map (fun ms =>
      ms.map (fun t =>
        if t.kind = TrackKind.audio then { t with enabled := !mute } else t)) }

/-- Embeds `pauseRecording` (src/src/index.ts lines 206-210): calls
`pause()` on the recorder only when it exists and its state is exactly
`recording`; the pause call transitions the external recorder to `paused`. -/
def pauseRecording (s : HookState) : HookState :=
  match s.mediaRecorder with
  | some MRState.recording => { s with mediaRecorder := some MRState.paused }
  | _ => s

/-- Embeds `resumeRecording` (src/src/index.ts lines 211-215): calls
`resume()` only when the recorder exists and its state is exactly `paused`;
the resume call transitions the external recorder back to `recording`. -/
def resumeRecording (s : HookState) : HookState :=
  match s.mediaRecorder with
  | some MRState.paused => { s with mediaRecorder := some MRState.recording }
  | _ => s

/-- Embeds `stopRecording` (src/src/index.ts lines 224-235): nothing happens
without a recorder or with an inactive one; otherwise status becomes
`stopping`, `stop()` is called on the recorder (making it inactive, with its
stop event delivered later), every stream track is stopped when
`stopStreamsOnStop` is set, and the chunk buffer is cleared synchronously
(`mediaChunks.current = []`). -/
def stopRecording (cfg : ReactMediaRecorderHookProps) (s : HookState) :
    HookState :=
  match s.mediaRecorder with
  | none => s
  | some st =>
    if st = MRState.inactive then s
    else
      { s with
        status := StatusMessages.stopping,
        mediaRecorder := some MRState.inactive,
        mediaStream :=
          if cfg.stopStreamsOnStop then
            s.mediaStream.map (fun ms =>
              ms.map (fun t => { t with readyState := ReadyState.ended }))
          else s.mediaStream,
        mediaChunks := [] }

/-- Embeds the inline `onerror` handler wired in `startRecording`
(src/src/index.ts lines 250-253): stores the `NO_RECORDER` key and returns
status to `idle`. Nothing else is touched. -/
def onRecordingError (s : HookState) : HookState :=
  { s with error := "NO_RECORDER", status := StatusMessages.idle }

/-- Embeds `startRecording` (src/src/index.ts lines 237-257, primary
variant): clears the error key, and when a stream exists, re-acquires via
`getMediaStream` when some track reports `readyState === "ended"`
(`Array.some`), then replaces the recorder reference with a freshly
constructed recorder, starts it, and sets status to `recording`. The chunk
buffer is never touched here. -/
def startRecording (cfg : ReactMediaRecorderHookProps) (dev : MediaDevices)
    (s : HookState) : HookState :=
  match s.mediaStream with
  | none => { s with error := "NONE" }
  | some stream =>
    let s0 := { s with error := "NONE" }
    let s1 :=
      if stream.any (fun t => t.readyState = ReadyState.ended) then
        getMediaStream cfg dev s0
      else s0
    { s1 with mediaRecorder := some MRState.recording,
              status := StatusMessages.recording }

/-- Embeds `startRecording` of the extended variant (src/src/index.ts lines
548-565): the ended-track check is computed but its result is never used —
no re-acquisition happens on any path. -/
def startRecordingExt (_cfg : ReactMediaRecorderHookProps)
    (_dev : MediaDevices) (s : HookState) : HookState :=
  match s.mediaStream with
  | none => { s with error := "NONE" }
  | some stream =>
    let s0 := { s with error := "NONE" }
    let _isStreamEnded := stream.any (fun t => t.readyState = ReadyState.ended)
    { s0 with mediaRecorder := some MRState.recording,
              status := StatusMessages.recording }

/-- Embeds `clearBlobUrl` (src/src/index.ts line 278): resets `mediaBlobUrl`
to null. -/
def clearBlobUrl (s : HookState) : HookState :=
  { s with mediaBlobUrl := none }

/-- Embeds `stopMediaStream` (src/src/index.ts lines 259-263): stops every
track of the current stream. -/
def stopMediaStream (s : HookState) : HookState :=
  { s with mediaStream := s.mediaStream.map (fun ms =>
      ms.map (fun t => { t with readyState := ReadyState.ended })) }

/-- Invariant tying the object-URL counter to the URLs issued so far: every
issued URL is below `nextUrl` and the currently published `mediaBlobUrl` was
issued. Holds of `initialState` and is maintained by every operation. -/
def UrlInvariant (s : HookState) : Prop :=
  (∀ u ∈ s.urlsIssued, u < s.nextUrl) ∧
  (∀ u ∈ s.mediaBlobUrl, u ∈ s.urlsIssued)

/-- Amended blob-type policy, written from the corrected spec words: an
explicit `blobPropertyBag` wins when it carries a type (falling back to the
first chunk's type when it does not); without a bag the default —
`"video/mp4"` when video was requested, else `"audio/wav"` — is used
regardless of the chunk's reported type. -/
def blobTypeAmended (cfg : ReactMediaRecorderHookProps)
    (chunkType : String) : String :=
  match cfg.blobPropertyBag with
  | some bag =>
    match bag.type with
    | some t => t
    | none => chunkType
  | none => if cfg.video then "video/mp4" else "audio/wav"

/-- Audio-only configuration with no blob property bag (the hook defaults:
`audio = true`, `video = false`). -/
def cfgAudio : ReactMediaRecorderHookProps :=
  { audio := true
    video := false
    screen := false
    blobPropertyBag := none
    customMediaStream := none
    stopStreamsOnStop := true }

/-- A live enabled audio track. -/
def tLiveAudio : Track :=
  { kind := TrackKind.audio, enabled := true, readyState := ReadyState.live }

/-- A live enabled video track. -/
def tLiveVideo : Track :=
  { kind := TrackKind.video, enabled := true, readyState := ReadyState.live }

/-- An audio track whose `readyState` is `ended`. -/
def tEndedAudio : Track :=
  { kind := TrackKind.audio, enabled := true, readyState := ReadyState.ended }

/-- A live audio track that starts out disabled. -/
def tDisabledAudio : Track :=
  { kind := TrackKind.audio, enabled := false, readyState := ReadyState.live }

/-- Devices that succeed, delivering one live audio track. -/
def devOk : MediaDevices :=
  { userMedia := [tLiveAudio], displayMedia := [], audioMedia := [],
    failure := none }

/-- Devices whose acquisition throws `NotAllowedError`. -/
def devDenied : MediaDevices :=
  { userMedia := [tLiveAudio], displayMedia := [], audioMedia := [],
    failure := some "NotAllowedError" }

/-- A data chunk reporting the MIME type `audio/webm`. -/
def chunkWebm : Chunk := { data := 0, type := "audio/webm" }

/-- A second data chunk reporting the MIME type `audio/webm`. -/
def chunkWebm2 : Chunk := { data := 1, type := "audio/webm" }

/-- Hook state holding a live audio stream, before any recording. -/
def sLive : HookState := { initialState with mediaStream := some [tLiveAudio] }

/-- Hook state whose stream has one live video track and one ended audio
track. -/
def sMixed : HookState :=
  { initialState with mediaStream := some [tLiveVideo, tEndedAudio] }

/-- Hook state at finalize time with one buffered `audio/webm` chunk. -/
def sReady : HookState := { initialState with mediaChunks := [chunkWebm] }

/-- Hook state whose stream has a disabled audio track. -/
def sDisabledAudio : HookState :=
  { initialState with mediaStream := some [tDisabledAudio] }

/-- Hook state mid-recording with one buffered chunk. -/
def sRecordingChunk : HookState :=
  { initialState with
      mediaRecorder := some MRState.recording,
      mediaChunks := [chunkWebm],
      mediaStream := some [tLiveAudio],
      status := StatusMessages.recording }

/-! ## Helper lemmas -/

/-- Every run of `getMediaStream` performs exactly one acquisition. -/
theorem getMediaStream_acqCount (cfg : ReactMediaRecorderHookProps)
    (dev : MediaDevices) (s : HookState) :
    (getMediaStream cfg dev s).acqCount = s.acqCount + 1 := by
  cases hc : cfg.customMediaStream with
  | some cs => simp [getMediaStream, hc]
  | none =>
    cases hf : dev.failure with
    | some n => simp [getMediaStream, hc, hf]
    | none =>
      by_cases hs : cfg.screen <;> simp [getMediaStream, hc, hf, hs]

/-- `getMediaStream` never touches the chunk buffer. -/
theorem getMediaStream_mediaChunks (cfg : ReactMediaRecorderHookProps)
    (dev : MediaDevices) (s : HookState) :
    (getMediaStream cfg dev s).mediaChunks = s.mediaChunks := by
  cases hc : cfg.customMediaStream with
  | some cs => simp [getMediaStream, hc]
  | none =>
    cases hf : dev.failure with
    | some n => simp [getMediaStream, hc, hf]
    | none =>
      by_cases hs : cfg.screen <;> simp [getMediaStream, hc, hf, hs]

/-- Disabling then re-enabling the audio tracks of a stream whose audio
tracks were all enabled returns the original track list. -/
theorem mute_unmute_stream (st : MediaStream)
    (h : ∀ t ∈ st, t.kind = TrackKind.audio → t.enabled = true) :
    (st.map (fun t =>
        if t.kind = TrackKind.audio then { t with enabled := !true } else t)).map
      (fun t =>
        if t.kind = TrackKind.audio then { t with enabled := !false } else t)
    = st := by
  induction st with
  | nil => rfl
  | cons t ts ih =>
    simp only [List.map_cons, List.cons.injEq]
    refine ⟨?_, ih (fun x hx => h x (List.mem_cons_of_mem t hx))⟩
    by_cases hk : t.kind = TrackKind.audio
    · have he := h t (List.mem_cons_self t ts) hk
      cases t with
      | mk k e r => simp_all
    · simp [hk]

/-! ## Claim theorems -/

/-- Claim C1 (confirmed): whenever the finalize handler `onRecordingStop`
runs with a non-empty chunk buffer — the situation produced by a completed
start, stop, stop-event cycle in which the recorder delivered its data —
it sets status to `stopped`, publishes a fresh `mediaBlobUrl` distinct from
every previously issued URL (in particular from any previous
`mediaBlobUrl`), and invokes the consumer `onStop` callback exactly once,
with that URL and the blob assembled from the buffered chunks. -/
theorem claim1_finalize (cfg : ReactMediaRecorderHookProps) (s : HookState)
    (chunk : Chunk) (rest : List Chunk)
    (hchunks : s.mediaChunks = chunk :: rest) (hinv : UrlInvariant s) :
    (onRecordingStop cfg s).map HookState.status
      = some StatusMessages.stopped ∧
    (onRecordingStop cfg s).map HookState.mediaBlobUrl
      = some (some s.nextUrl) ∧
    s.nextUrl ∉ s.urlsIssued ∧
    (∀ v ∈ s.mediaBlobUrl, s.nextUrl ≠ v) ∧
    (onRecordingStop cfg s).map (fun s2 => s2.onStopCalls.map Prod.fst)
      = some (s.onStopCalls.map Prod.fst ++ [s.nextUrl]) ∧
    (onRecordingStop cfg s).map
        (fun s2 => s2.onStopCalls.map (fun pr => pr.2.parts))
      = some (s.onStopCalls.map (fun pr => pr.2.parts) ++ [s.mediaChunks]) := by
  refine ⟨?_, ?_, ?_, ?_, ?_, ?_⟩
  · simp [onRecordingStop, hchunks]
  · simp [onRecordingStop, hchunks]
  · intro hmem
    exact absurd (hinv.1 _ hmem) (lt_irrefl _)
  · intro v hv
    exact ne_of_gt (hinv.1 v (hinv.2 v hv))
  · simp [onRecordingStop, hchunks]
  · simp [onRecordingStop, hchunks]

/-- Claim C1 witness: the finalize effects evaluated on a concrete state
with one buffered chunk and no previously issued URL. -/
theorem claim1_witness :
    (onRecordingStop cfgAudio sReady).map HookState.status
      = some StatusMessages.stopped ∧
    (onRecordingStop cfgAudio sReady).map HookState.mediaBlobUrl
      = some (some sReady.nextUrl) ∧
    sReady.nextUrl ∉ sReady.urlsIssued ∧
    (onRecordingStop cfgAudio sReady).map (fun s2 => s2.onStopCalls.map Prod.fst)
      = some (sReady.onStopCalls.map Prod.fst ++ [sReady.nextUrl]) ∧
    (onRecordingStop cfgAudio sReady).map
        (fun s2 => s2.onStopCalls.map (fun pr => pr.2.parts))
      = some (sReady.onStopCalls.map (fun pr => pr.2.parts)
          ++ [sReady.mediaChunks]) := by
  have hinv : UrlInvariant sReady := by
    constructor
    · intro u hu
      simp [sReady, initialState] at hu
    · intro u hu
      simp [sReady, initialState] at hu
  have h := claim1_finalize cfgAudio sReady chunkWebm [] rfl hinv
  exact ⟨h.1, h.2.1, h.2.2.1, h.2.2.2.2.1, h.2.2.2.2.2⟩

/-- Claim C2 counterexample: for an audio-only recording with no
`blobPropertyBag` whose first chunk reports the non-empty type
`audio/webm`, the produced blob has type `audio/wav`, not the
chunk-reported type — `Object.assign` lets the default override the first
chunk's type, the opposite of the claimed precedence. -/
theorem claim2_counterexample :
    (onRecordingStop cfgAudio sReady).map
        (fun s2 => s2.onStopCalls.map (fun pr => pr.2.type))
      = some ["audio/wav"] ∧
    chunkWebm.type = "audio/webm" ∧
    ("audio/wav" : String) ≠ "audio/webm" := by
  refine ⟨rfl, rfl, by decide⟩

/-- Claim C2 amended: for every finalize invocation, the produced blob's
type is the explicit `blobPropertyBag` type when one is configured (falling
back to the first chunk's reported type only when the bag carries no type),
and otherwise the default — `video/mp4` when video was requested, else
`audio/wav` — regardless of the first chunk's reported type. -/
theorem claim2_amended (cfg : ReactMediaRecorderHookProps) (s : HookState)
    (c : Chunk) (rest : List Chunk) (h : s.mediaChunks = c :: rest) :
    (onRecordingStop cfg s).map
        (fun s2 => s2.onStopCalls.map (fun pr => pr.2.type))
      = some (s.onStopCalls.map (fun pr => pr.2.type)
          ++ [blobTypeAmended cfg c.type]) := by
  cases hb : cfg.blobPropertyBag with
  | none =>
    by_cases hv : cfg.video <;>
      simp [onRecordingStop, h, hb, hv, blobTypeAmended, objectAssignType]
  | some bag =>
    cases ht : bag.type with
    | none => simp [onRecordingStop, h, hb, ht, blobTypeAmended, objectAssignType]
    | some t => simp [onRecordingStop, h, hb, ht, blobTypeAmended, objectAssignType]

/-- Claim C2 witness: the amended blob-type policy evaluated on the concrete
audio-only state with one `audio/webm` chunk. -/
theorem claim2_witness :
    (onRecordingStop cfgAudio sReady).map
        (fun s2 => s2.onStopCalls.map (fun pr => pr.2.type))
      = some [blobTypeAmended cfgAudio chunkWebm.type] := by
  simpa [sReady, initialState] using
    claim2_amended cfgAudio sReady chunkWebm [] rfl

/-- Claim C3 (code bug) evaluated at the failing input: an audio recording
in which one chunk was emitted before `stopRecording`. The synchronous
`mediaChunks.current = []` in `stopRecording` runs before the asynchronous
stop event, so the finalize handler reads the cleared buffer: the pre-stop
chunk is gone and the first-chunk access faults (`onRecordingStop` returns
`none`, modelling the `chunk.type` access on undefined), contradicting the
claimed snapshot-at-stop-time behavior. -/
theorem claim3_code_eval :
    (onRecordingActive chunkWebm
        (startRecording cfgAudio devOk sLive)).mediaChunks = [chunkWebm] ∧
    (stopRecording cfgAudio
        (onRecordingActive chunkWebm
          (startRecording cfgAudio devOk sLive))).mediaChunks = [] ∧
    onRecordingStop cfgAudio
        (stopRecording cfgAudio
          (onRecordingActive chunkWebm
            (startRecording cfgAudio devOk sLive)))
      = none := by
  refine ⟨rfl, rfl, rfl⟩

/-- Claim C4 counterexample: a stream with a live video track and an ended
audio track — at least one track is still live, yet `startRecording`
re-acquires (the acquisition counter increments), because the source uses
`Array.some` on ended tracks, not a check that all tracks ended. -/
theorem claim4_counterexample :
    tLiveVideo ∈ [tLiveVideo, tEndedAudio] ∧
    tLiveVideo.readyState = ReadyState.live ∧
    sMixed.mediaStream = some [tLiveVideo, tEndedAudio] ∧
    sMixed.acqCount = 0 ∧
    (startRecording cfgAudio devOk sMixed).acqCount = 1 := by
  refine ⟨List.mem_cons_self tLiveVideo [tEndedAudio], rfl, rfl, rfl, rfl⟩

/-- Claim C4 amended: with an existing stream, the primary hook's
`startRecording` re-acquires before creating the recorder if and only if at
least one of the stream's tracks has ended; only when every track is live
is the existing stream used without re-acquisition. The extended variant
never re-acquires (its ended-track check is computed but unused). -/
theorem claim4_amended (cfg : ReactMediaRecorderHookProps)
    (dev : MediaDevices) (s : HookState) (stream : MediaStream)
    (h : s.mediaStream = some stream) :
    ((startRecording cfg dev s).acqCount = s.acqCount + 1 ↔
      stream.any (fun t => t.readyState = ReadyState.ended) = true) ∧
    (stream.any (fun t => t.readyState = ReadyState.ended) = false →
      (startRecording cfg dev s).mediaStream = s.mediaStream ∧
      (startRecording cfg dev s).acqCount = s.acqCount) ∧
    (startRecordingExt cfg dev s).acqCount = s.acqCount := by
  cases hAny : stream.any (fun t => t.readyState = ReadyState.ended) with
  | true =>
    refine ⟨?_, ?_, ?_⟩
    · simp [startRecording, h, hAny, getMediaStream_acqCount]
    · intro hfalse
      simp at hfalse
    · simp [startRecordingExt, h]
  | false =>
    refine ⟨?_, ?_, ?_⟩
    · have hacq : (startRecording cfg dev s).acqCount = s.acqCount := by
        simp [startRecording, h, hAny]
      rw [hacq]
      constructor
      · intro hc
        exact absurd hc (by omega)
      · intro hc
        exact absurd hc (by simp)
    · intro _
      exact ⟨by simp [startRecording, h, hAny], by simp [startRecording, h, hAny]⟩
    · simp [startRecordingExt, h]

/-- Claim C4 witness: on the mixed live/ended stream the amended statement
yields exactly one re-acquisition. -/
theorem claim4_witness :
    (startRecording cfgAudio devOk sMixed).acqCount = sMixed.acqCount + 1 :=
  (claim4_amended cfgAudio devOk sMixed [tLiveVideo, tEndedAudio] rfl).1.mpr
    (by decide)

/-- Claim C5 counterexample: start, emit a chunk, start again with no
intervening stop — the chunk buffer still holds the first cycle's chunk
(`startRecording` never clears it), and when the second cycle's recorder
stop event fires, the finalized blob contains the first cycle's chunk. -/
theorem claim5_counterexample :
    (startRecording cfgAudio devOk
        (onRecordingActive chunkWebm
          (startRecording cfgAudio devOk sLive))).mediaChunks
      = [chunkWebm] ∧
    (onRecordingStop cfgAudio
        (onRecordingActive chunkWebm2
          (startRecording cfgAudio devOk
            (onRecordingActive chunkWebm
              (startRecording cfgAudio devOk sLive))))).map
        (fun s2 => s2.onStopCalls.map (fun pr => pr.2.parts))
      = some [[chunkWebm, chunkWebm2]] := by
  refine ⟨rfl, rfl⟩

/-- Claim C5 amended: a repeated `startRecording` discards the prior
recorder reference (the recorder ref is replaced by a fresh recording
recorder) but does not clear the chunk buffer, so chunks emitted during the
first cycle remain buffered and can appear in the output of a later
finalize that runs without an intervening `stopRecording`. -/
theorem claim5_amended (cfg : ReactMediaRecorderHookProps)
    (dev : MediaDevices) (s : HookState) (stream : MediaStream)
    (h : s.mediaStream = some stream) :
    (startRecording cfg dev s).mediaRecorder = some MRState.recording ∧
    (startRecording cfg dev s).mediaChunks = s.mediaChunks := by
  cases hAny : stream.any (fun t => t.readyState = ReadyState.ended) with
  | true =>
    exact ⟨by simp [startRecording, h, hAny],
           by simp [startRecording, h, hAny, getMediaStream_mediaChunks]⟩
  | false =>
    exact ⟨by simp [startRecording, h, hAny],
           by simp [startRecording, h, hAny]⟩

/-- Claim C5 witness: the amended statement evaluated on the concrete
mid-cycle state holding the first cycle's chunk. -/
theorem claim5_witness :
    (startRecording cfgAudio devOk
        (onRecordingActive chunkWebm
          (startRecording cfgAudio devOk sLive))).mediaRecorder
      = some MRState.recording ∧
    (startRecording cfgAudio devOk
        (onRecordingActive chunkWebm
          (startRecording cfgAudio devOk sLive))).mediaChunks
      = (onRecordingActive chunkWebm
          (startRecording cfgAudio devOk sLive)).mediaChunks :=
  claim5_amended cfgAudio devOk
    (onRecordingActive chunkWebm (startRecording cfgAudio devOk sLive))
    [tLiveAudio] rfl

/-- Claim C6 (confirmed): when acquisition fails with a named error (and no
custom stream short-circuits the capability call), `getMediaStream` stores
that name as the error key, the exposed error is its image under the
`RecorderErrors` table, status resolves to `idle` rather than a distinct
failed state, and no stream is stored. -/
theorem claim6_failure (cfg : ReactMediaRecorderHookProps)
    (dev : MediaDevices) (s : HookState) (n : String)
    (hf : dev.failure = some n) (hc : cfg.customMediaStream = none) :
    (getMediaStream cfg dev s).error = n ∧
    exposedError (getMediaStream cfg dev s) = RecorderErrors n ∧
    (getMediaStream cfg dev s).status = StatusMessages.idle ∧
    (getMediaStream cfg dev s).mediaStream = s.mediaStream := by
  refine ⟨?_, ?_, ?_, ?_⟩ <;> simp [getMediaStream, exposedError, hc, hf]

/-- Claim C6 witness: acquisition throwing `NotAllowedError` on the initial
state yields exposed error `permission_denied`, status `idle` and no stored
stream. -/
theorem claim6_witness :
    exposedError (getMediaStream cfgAudio devDenied initialState)
      = some "permission_denied" ∧
    (getMediaStream cfgAudio devDenied initialState).status
      = StatusMessages.idle ∧
    (getMediaStream cfgAudio devDenied initialState).mediaStream
      = initialState.mediaStream := by
  have h := claim6_failure cfgAudio devDenied initialState "NotAllowedError"
    rfl rfl
  refine ⟨?_, h.2.2.1, h.2.2.2⟩
  rw [h.2.1]
  rfl

/-- Claim C7 counterexample: a recorder error event during an active
recording with one buffered chunk — the handler neither discards the
buffered chunk nor stops the recorder, so the claimed stop-and-discard does
not happen. -/
theorem claim7_counterexample :
    sRecordingChunk.mediaChunks = [chunkWebm] ∧
    sRecordingChunk.mediaRecorder = some MRState.recording ∧
    (onRecordingError sRecordingChunk).mediaChunks = [chunkWebm] ∧
    (onRecordingError sRecordingChunk).mediaRecorder
      = some MRState.recording := by
  refine ⟨rfl, rfl, rfl, rfl⟩

/-- Claim C7 amended: a recorder-level error event sets the exposed error to
`recorder_error` and returns status to `idle`; the handler itself leaves the
recorder reference, the accumulated chunks, the stream and the published
blob URL untouched (no stopping and no chunk discarding is performed by the
session). -/
theorem claim7_amended (s : HookState) :
    exposedError (onRecordingError s) = some "recorder_error" ∧
    (onRecordingError s).status = StatusMessages.idle ∧
    (onRecordingError s).mediaChunks = s.mediaChunks ∧
    (onRecordingError s).mediaRecorder = s.mediaRecorder ∧
    (onRecordingError s).mediaStream = s.mediaStream ∧
    (onRecordingError s).mediaBlobUrl = s.mediaBlobUrl := by
  refine ⟨rfl, rfl, rfl, rfl, rfl, rfl⟩

/-- Claim C8 (confirmed): `pauseRecording` leaves the state entirely
unchanged unless a recorder exists in state exactly `recording` (in which
case only the recorder is paused), `resumeRecording` symmetrically acts
only on a recorder in state exactly `paused`, and neither call ever changes
the externally visible status or error fields. -/
theorem claim8_pause_resume (s : HookState) :
    (pauseRecording s).status = s.status ∧
    (pauseRecording s).error = s.error ∧
    (resumeRecording s).status = s.status ∧
    (resumeRecording s).error = s.error ∧
    (s.mediaRecorder ≠ some MRState.recording → pauseRecording s = s) ∧
    (s.mediaRecorder ≠ some MRState.paused → resumeRecording s = s) ∧
    (s.mediaRecorder = some MRState.recording →
      (pauseRecording s).mediaRecorder = some MRState.paused) ∧
    (s.mediaRecorder = some MRState.paused →
      (resumeRecording s).mediaRecorder = some MRState.recording) := by
  cases hr : s.mediaRecorder with
  | none =>
    refine ⟨?_, ?_, ?_, ?_, ?_, ?_, ?_, ?_⟩ <;>
      simp [pauseRecording, resumeRecording, hr]
  | some st =>
    cases st <;>
      refine ⟨?_, ?_, ?_, ?_, ?_, ?_, ?_, ?_⟩ <;>
        simp [pauseRecording, resumeRecording, hr]

/-- Claim C8 witness: on the initial state (no recorder) both calls are
exact no-ops. -/
theorem claim8_witness :
    pauseRecording initialState = initialState ∧
    resumeRecording initialState = initialState := by
  have h := claim8_pause_resume initialState
  exact ⟨h.2.2.2.2.1 (by decide), h.2.2.2.2.2.1 (by decide)⟩

/-- Claim C9 (confirmed): when no recorder exists or the recorder is
already inactive, `stopRecording` returns the state unchanged — status,
error, chunk buffer and stream tracks included. -/
theorem claim9_stop_noop (cfg : ReactMediaRecorderHookProps) (s : HookState)
    (h : s.mediaRecorder = none ∨ s.mediaRecorder = some MRState.inactive) :
    stopRecording cfg s = s := by
  rcases h with h | h <;> simp [stopRecording, h]

/-- Claim C9 witness: `stopRecording` on the initial state (no recorder) is
the identity. -/
theorem claim9_witness : stopRecording cfgAudio initialState = initialState :=
  claim9_stop_noop cfgAudio initialState (Or.inl rfl)

/-- Claim C10 counterexample: a stream whose only audio track starts out
disabled — mute followed by unmute leaves the track enabled, which differs
from its original enabled state, so the round trip does not restore the
per-track state. -/
theorem claim10_counterexample :
    sDisabledAudio.mediaStream = some [tDisabledAudio] ∧
    tDisabledAudio.enabled = false ∧
    (muteAudio false (muteAudio true sDisabledAudio)).mediaStream
      = some [{ tDisabledAudio with enabled := true }] ∧
    (muteAudio false (muteAudio true sDisabledAudio)).mediaStream
      ≠ sDisabledAudio.mediaStream := by
  refine ⟨rfl, rfl, rfl, by decide⟩

/-- Claim C10 amended: `muteAudio` sets `isAudioMuted` to `true` and
disables every audio track, `unMuteAudio` sets it to `false` and enables
every audio track, and neither call touches the recorder or the status;
mute followed by unmute restores the original per-track enabled state
exactly when every audio track was originally enabled (otherwise the
round trip leaves all audio tracks enabled). -/
theorem claim10_amended (mute : Bool) (s : HookState) (st : MediaStream)
    (h : s.mediaStream = some st) :
    (muteAudio mute s).isAudioMuted = mute ∧
    (muteAudio mute s).mediaRecorder = s.mediaRecorder ∧
    (muteAudio mute s).status = s.status ∧
    (muteAudio mute s).error = s.error ∧
    (muteAudio mute s).mediaStream
      = some (st.map (fun t =>
          if t.kind = TrackKind.audio then { t with enabled := !mute }
          else t)) ∧
    ((∀ t ∈ st, t.kind = TrackKind.audio → t.enabled = true) →
      (muteAudio false (muteAudio true s)).mediaStream = some st) := by
  refine ⟨rfl, rfl, rfl, rfl, ?_, ?_⟩
  · simp [muteAudio, h]
  · intro hall
    simp only [muteAudio, h, Option.map_some']
    rw [mute_unmute_stream st hall]

/-- Claim C10 witness: on a stream whose audio track is enabled, mute sets
the flag and the mute-unmute round trip restores the original tracks. -/
theorem claim10_witness :
    (muteAudio true sLive).isAudioMuted = true ∧
    (muteAudio false (muteAudio true sLive)).mediaStream
      = some [tLiveAudio] := by
  have h := claim10_amended true sLive [tLiveAudio] rfl
  exact ⟨h.1, h.2.2.2.2.2 (by decide)⟩
